import Mathlib

/-!
# ESP stream layer and consumer: a shallow embedding

Embedding of `Xcode/Audio/src/istream.h` (class `IStream` and the declarations of
its four variants) and of the consumer `Xcode/Audio/src/ofApp.cpp`.

Conventions of the embedding.

* A `std::function` member is an `Option`: `none` is the empty function
  (`nullptr`), `some f` holds the callable `f`.
* `double` is a type parameter `D`; the statements that compute with concrete
  samples instantiate it with `ℚ` or `ℤ` on values that are exactly representable.
* `GRT::MatrixDouble` is a type parameter `M` on the stream side.
* A callback `void(GRT::MatrixDouble)` acts on the consumer's world `W`.
* Methods are state transformers. The consumer's lock and the host threads are
  not represented: every method call is one atomic step.
-/

namespace ESP

/-! ## `IStream` (istream.h) -/

/-- The type `std::function<double(double)>`. -/
abbrev normalizeFunc (D : Type) := Option (D → D)

/-- The type `std::function<vector<double>(vector<double>)>`. -/
abbrev vectorNormalizeFunc (D : Type) := Option (List D → List D)

/-- The type `std::function<void(GRT::MatrixDouble)>`, acting on the world `W`. -/
abbrev onDataReadyCallback (M W : Type) := Option (M → W → W)

/-- The protected data members of `IStream`. -/
structure IStream (D M W : Type) where
  has_started_ : Bool
  data_ready_callback_ : onDataReadyCallback M W
  normalizer_ : normalizeFunc D
  vectorNormalizer_ : vectorNormalizeFunc D

namespace IStream

variable {D M W : Type}

/-- The base-class `useUSBPort(int i) {}`. -/
def useUSBPort (s : IStream D M W) (_i : Int) : IStream D M W := s

/-- The base-class `useAnalogPin(int i) {}`. -/
def useAnalogPin (s : IStream D M W) (_i : Int) : IStream D M W := s

/-- The overload `useNormalizer(normalizeFunc f)`. -/
def useNormalizer (s : IStream D M W) (f : normalizeFunc D) : IStream D M W :=
  { s with normalizer_ := f, vectorNormalizer_ := none }

/-- The overload `useNormalizer(vectorNormalizeFunc f)`. -/
def useNormalizerVector (s : IStream D M W) (f : vectorNormalizeFunc D) : IStream D M W :=
  { s with normalizer_ := none, vectorNormalizer_ := f }

/-- The accessor `hasStarted()`. -/
def hasStarted (s : IStream D M W) : Bool := s.has_started_

/-- The overload `onDataReadyEvent(onDataReadyCallback callback)`. -/
def onDataReadyEvent (s : IStream D M W) (callback : onDataReadyCallback M W) :
    IStream D M W :=
  { s with data_ready_callback_ := callback }

/-- The overload `onDataReadyEvent(T1* owner, void (T::*listenerMethod)(arg))`:
the stored callable is `std::bind(listenerMethod, owner, _1)`. `O` is the type of
the owner pointer, `A` the listener's argument type and `conv` the implicit
conversion from the dispatched matrix to `A` that the bound call performs. -/
def onDataReadyEventMember {O A : Type} (s : IStream D M W) (conv : M → A) (owner : O)
    (listenerMethod : O → A → W → W) : IStream D M W :=
  { s with data_ready_callback_ := some (fun m w => listenerMethod owner (conv m) w) }

/-- Modelled from the spec: the body of `IStream::normalize`, which is only
declared in istream.h. Section 4.1: if an elementwise normalizer is installed,
apply it to every element; else if a vector-wise normalizer is installed, apply
it to the whole vector; else return the input unchanged. -/
def normalize (s : IStream D M W) (v : List D) : List D :=
  match s.normalizer_ with
  | some f => v.map f
  | none =>
    match s.vectorNormalizer_ with
    | some g => g v
    | none => v

/-- Modelled from the spec: one data-ready dispatch, which the variants perform in
code that is not part of istream.h. Section 2: the completed matrix is delivered,
synchronously, to the registered consumer callback; with no callback registered
nothing is delivered. -/
def dispatch (s : IStream D M W) (m : M) (w : W) : W :=
  match s.data_ready_callback_ with
  | some cb => cb m w
  | none => w

/-- One call of either `useNormalizer` overload. -/
inductive NormalizerCall (D : Type) where
  | elementwise (f : normalizeFunc D)
  | vectorwise (f : vectorNormalizeFunc D)

/-- Perform one `useNormalizer` call. -/
def applyCall (s : IStream D M W) : NormalizerCall D → IStream D M W
  | .elementwise f => s.useNormalizer f
  | .vectorwise f => s.useNormalizerVector f

/-- Perform a sequence of `useNormalizer` calls, first call first. -/
def applyCalls (s : IStream D M W) (calls : List (NormalizerCall D)) : IStream D M W :=
  calls.foldl applyCall s

/-- At most one of the two normalizer slots holds a function. -/
def atMostOneNormalizer (s : IStream D M W) : Bool :=
  s.normalizer_.isNone || s.vectorNormalizer_.isNone

end IStream

/-! ## The consumer `ofApp` (ofApp.cpp)

The plots, the recognition pipeline and the concrete stream are collaborators
whose code is outside the repository sources at hand. A plot is represented by
its set-up parameters and the sequence of vectors handed to `update`; the
pipeline and the stream are abstract states with their operations passed in.
-/

/-- A time-series plot: the arguments of `setup` and the vectors passed to
`update`, oldest first. -/
structure Plot (D : Type) where
  size : Nat
  dims : Nat
  title : String
  data : List (List D)
  deriving DecidableEq

/-- The call `plot.setup(size, dims, title)`. -/
def Plot.setup {D : Type} (_p : Plot D) (size dims : Nat) (title : String) : Plot D :=
  { size := size, dims := dims, title := title, data := [] }

/-- The call `plot.update(v)`. -/
def Plot.update {D : Type} (p : Plot D) (v : List D) : Plot D :=
  { p with data := p.data ++ [v] }

/-- A default-constructed plot. -/
def Plot.blank {D : Type} : Plot D :=
  { size := 0, dims := 0, title := "", data := [] }

/-- The labelled time-series data set `training_data_`. -/
structure TrainingData (D : Type) where
  numDimensions : Nat
  datasetName : String
  infoText : String
  samples : List (Int × List (List D))
  deriving DecidableEq

/-- The operations of `GRT::GestureRecognitionPipeline` used by the consumer, on
an abstract pipeline state `P`. The two module lists give the number of output
dimensions of each installed module; a module lookup outside the list yields no
module. -/
structure PipelineOps (P D : Type) where
  preProcessingModules : P → List Nat
  featureExtractionModules : P → List Nat
  preProcessData : P → List D → Bool × P
  getPreProcessedData : P → List D
  getFeatureExtractionData : P → List D
  train : P → TrainingData D → Bool × P

namespace PipelineOps

variable {P D : Type}

/-- The call `getNumPreProcessingModules()`. -/
def getNumPreProcessingModules (ops : PipelineOps P D) (p : P) : Nat :=
  (ops.preProcessingModules p).length

/-- The call `getPreProcessingModule(i)->getNumOutputDimensions()`; `none` when
the lookup yields no module. -/
def getPreProcessingModule (ops : PipelineOps P D) (p : P) (i : Nat) : Option Nat :=
  (ops.preProcessingModules p)[i]?

/-- The call `getNumFeatureExtractionModules()`. -/
def getNumFeatureExtractionModules (ops : PipelineOps P D) (p : P) : Nat :=
  (ops.featureExtractionModules p).length

/-- The call `getFeatureExtractionModule(i)->getNumOutputDimensions()`; `none`
when the lookup yields no module. -/
def getFeatureExtractionModule (ops : PipelineOps P D) (p : P) (i : Nat) : Option Nat :=
  (ops.featureExtractionModules p)[i]?

end PipelineOps

/-- The stream behind `istream_`: the pure virtual `start` and `stop` of the
variant in use, and the base-class member `has_started_`. -/
structure StreamImpl (S : Type) where
  start : S → S
  stop : S → S
  has_started_ : S → Bool

/-- The call `istream_->hasStarted()`. -/
def StreamImpl.hasStarted {S : Type} (impl : StreamImpl S) (s : S) : Bool :=
  impl.has_started_ s

/-- The data members of `ofApp` that its methods read or write. `training_thread_`
is the joinable flag of the training thread and `log_` the lines written with
`ofLog`. -/
structure ofApp (S P D : Type) where
  buffer_size_ : Nat
  is_recording_ : Bool
  label_ : Int
  istream_ : S
  pipeline_ : P
  input_data_ : List D
  sample_data_ : List (List D)
  training_data_ : TrainingData D
  training_thread_ : Bool
  plot_inputs_ : Plot D
  plot_pre_processed_ : Plot D
  plot_features_ : List (Plot D)
  plot_samples_ : List (Plot D)
  plot_samples_info_ : List String
  gui_hide_ : Bool
  log_ : List String

/-- The code of a character constant, as the `int` it is compared with. -/
def charCode (c : Char) : Int := (c.toNat : Int)

namespace ofApp

variable {S P D : Type}

/-- The pre-processing branch of `setup`: with at least one module, module 0 is
looked up and the plot is set up with its output dimensions. -/
def setupPreProcessedPlot (ops : PipelineOps P D) (s : ofApp S P D) : Option (Plot D) :=
  let num_pre_processing := ops.getNumPreProcessingModules s.pipeline_
  if num_pre_processing > 0 then
    (ops.getPreProcessingModule s.pipeline_ 0).map
      (fun dims => s.plot_pre_processed_.setup s.buffer_size_ dims "PreProcessing")
  else
    some s.plot_pre_processed_

/-- The feature branch of `setup`: with at least one module, module 1 is looked
up and one plot per output dimension is appended to `plot_features_`. -/
def setupFeaturePlots (ops : PipelineOps P D) (s : ofApp S P D) : Option (List (Plot D)) :=
  let num_feature_modules := ops.getNumFeatureExtractionModules s.pipeline_
  if num_feature_modules > 0 then
    (ops.getFeatureExtractionModule s.pipeline_ 1).map
      (fun dims => s.plot_features_ ++
        List.replicate dims (Plot.blank.setup s.buffer_size_ 1 "Feature"))
  else
    some s.plot_features_

/-- The method `ofApp::setup`. `newStream` is the `AudioStream` just created with
`ofApp::onDataIn` registered on it, `userPipeline` the result of the user-defined
`setupPipeline()` and `kNumMaxLabels_` the constant of that name. The result is
`none` when a module lookup yields no module, whose output dimensions are then
read through a null pointer. The calls that only configure drawing (grid and
info text of a plot, the panel and its buttons, the background) act on no member
represented here. -/
def setup (ops : PipelineOps P D) (kNumMaxLabels_ : Nat) (newStream : S) (userPipeline : P)
    (s : ofApp S P D) : Option (ofApp S P D) := do
  let s := { s with buffer_size_ := 256, is_recording_ := false }
  let s := { s with istream_ := newStream }
  let s := { s with pipeline_ := userPipeline }
  let s := { s with plot_inputs_ := s.plot_inputs_.setup s.buffer_size_ 1 "Input" }
  let pre ← setupPreProcessedPlot ops s
  let s := { s with plot_pre_processed_ := pre }
  let features ← setupFeaturePlots ops s
  let s := { s with plot_features_ := features }
  let s := { s with
    plot_samples_ := s.plot_samples_ ++
      List.replicate kNumMaxLabels_ (Plot.blank.setup s.buffer_size_ 1 "Label"),
    plot_samples_info_ := s.plot_samples_info_ ++ List.replicate kNumMaxLabels_ "" }
  let s := { s with training_data_ :=
    { s.training_data_ with
      numDimensions := 1, datasetName := "Audio",
      infoText := "This data contains audio data" } }
  pure { s with gui_hide_ := true }

/-- The inner loop of `update`: `plot_features_[i].update({feature[i]})` for
`i = 0, 1, ...`; `none` when `i` is not an index of `plot_features_`. The first
argument is the part of `feature` from index `i` on. -/
def updateFeaturePlots : List D → Nat → List (Plot D) → Option (List (Plot D))
  | [], _, plots => some plots
  | x :: rest, i, plots =>
    match plots[i]? with
    | none => none
    | some plot => updateFeaturePlots rest (i + 1) (plots.set i (plot.update [x]))

/-- One iteration of the outer loop of `update`, for the sample `x = input_data_[i]`. -/
def updateStep (impl : StreamImpl S) (ops : PipelineOps P D) (s : ofApp S P D) (x : D) :
    Option (ofApp S P D) := do
  let data_point := [x]
  let s := { s with plot_inputs_ := s.plot_inputs_.update data_point }
  let s ←
    if impl.hasStarted s.istream_ then do
      let r := ops.preProcessData s.pipeline_ data_point
      let s := { s with
        pipeline_ := r.2,
        log_ := if r.1 then s.log_ else s.log_ ++ ["ERROR: Failed to compute features!"] }
      let pre_processed_data := ops.getPreProcessedData s.pipeline_
      let s := { s with plot_pre_processed_ := s.plot_pre_processed_.update pre_processed_data }
      let feature := ops.getFeatureExtractionData s.pipeline_
      let plots ← updateFeaturePlots feature 0 s.plot_features_
      pure { s with plot_features_ := plots }
    else
      pure s
  if s.is_recording_ then
    pure { s with sample_data_ := s.sample_data_ ++ [data_point] }
  else
    pure s

/-- The method `ofApp::update`: the loop body runs for each element of
`input_data_` in index order. -/
def update (impl : StreamImpl S) (ops : PipelineOps P D) (s : ofApp S P D) :
    Option (ofApp S P D) :=
  s.input_data_.foldlM (updateStep impl ops) s

/-- The training thread started by the key `t`, run to completion where it is
created: it trains `pipeline_` on its copy of the training data and logs. -/
def runTraining (ops : PipelineOps P D) (s : ofApp S P D) (data_copy : TrainingData D) :
    ofApp S P D :=
  let r := ops.train s.pipeline_ data_copy
  { s with
    pipeline_ := r.2,
    log_ := s.log_ ++ ["Training started",
      if r.1 then "Training is successful" else "Failed to train the model"],
    training_thread_ := true }

/-- The statement `if (training_thread_.joinable()) training_thread_.join();`. -/
def joinTraining (s : ofApp S P D) : ofApp S P D :=
  if s.training_thread_ then { s with training_thread_ := false } else s

/-- The method `ofApp::onDataIn`. -/
def onDataIn (s : ofApp S P D) (input : List D) : ofApp S P D :=
  { s with input_data_ := input }

/-- The statements of `case 's'` in `keyPressed`. -/
def keyPressedCaseS (impl : StreamImpl S) (s : ofApp S P D) : ofApp S P D :=
  { s with istream_ := impl.start s.istream_ }

/-- The method `ofApp::keyPressed`. The `case 'h'` has no `break`, so control
continues with the statements of `case 's'`. -/
def keyPressed (impl : StreamImpl S) (ops : PipelineOps P D) (s : ofApp S P D) (key : Int) :
    ofApp S P D :=
  let s :=
    if key ≥ charCode '0' ∧ key ≤ charCode '9' then
      { s with is_recording_ := true, label_ := key - charCode '0', sample_data_ := [] }
    else s
  if key = charCode 't' then
    let s := joinTraining s
    runTraining ops s s.training_data_
  else if key = charCode 'h' then
    let s := { s with gui_hide_ := !s.gui_hide_ }
    keyPressedCaseS impl s
  else if key = charCode 's' then
    keyPressedCaseS impl s
  else if key = charCode 'e' then
    let s := { s with istream_ := impl.stop s.istream_ }
    { s with input_data_ := [] }
  else if key = charCode 'p' then
    let s := { s with sample_data_ := [] }
    { s with is_recording_ := true }
  else s

end ofApp

/-- The two ways of registering a data-ready callback: a function value, or an
owner with a member-function pointer. -/
inductive Registration (M W : Type) where
  | function (callback : onDataReadyCallback M W)
  | member {O A : Type} (conv : M → A) (owner : O) (listenerMethod : O → A → W → W)

/-- The callable a registration stores. -/
def Registration.callable {M W : Type} : Registration M W → onDataReadyCallback M W
  | .function callback => callback
  | .member conv owner listenerMethod => some (fun m w => listenerMethod owner (conv m) w)

/-- Perform one `onDataReadyEvent` call through the overload the registration
selects. -/
def IStream.register {D M W : Type} (s : IStream D M W) : Registration M W → IStream D M W
  | .function callback => s.onDataReadyEvent callback
  | .member conv owner listenerMethod => s.onDataReadyEventMember conv owner listenerMethod

/-- What `update` does to the members of `ofApp` when it runs over the samples
`xs` from the state `s` and ends in `s'`. -/
structure UpdateEffect {S P D : Type} (impl : StreamImpl S) (ops : PipelineOps P D)
    (xs : List D) (s s' : ofApp S P D) : Prop where
  input_data : s'.input_data_ = s.input_data_
  istream : s'.istream_ = s.istream_
  is_recording : s'.is_recording_ = s.is_recording_
  label : s'.label_ = s.label_
  gui_hide : s'.gui_hide_ = s.gui_hide_
  sample_data : s'.sample_data_ =
    s.sample_data_ ++ (if s.is_recording_ then xs.map (fun x => [x]) else [])
  plot_inputs : s'.plot_inputs_.data = s.plot_inputs_.data ++ xs.map (fun x => [x])
  features_length : s'.plot_features_.length = s.plot_features_.length
  pipeline_started : impl.hasStarted s.istream_ = true →
    s'.pipeline_ = xs.foldl (fun p x => (ops.preProcessData p [x]).2) s.pipeline_
  pipeline_stopped : impl.hasStarted s.istream_ = false → s'.pipeline_ = s.pipeline_
  pre_processed_stopped : impl.hasStarted s.istream_ = false →
    s'.plot_pre_processed_ = s.plot_pre_processed_
  features_stopped : impl.hasStarted s.istream_ = false →
    s'.plot_features_ = s.plot_features_

/-- Every feature vector the pipeline can report has a plot for each of its
entries, or the stream has not started and no feature vector is read. -/
def FeaturesFit {S P D : Type} (impl : StreamImpl S) (ops : PipelineOps P D)
    (s : ofApp S P D) : Prop :=
  impl.hasStarted s.istream_ = false ∨
    ∀ p : P, (ops.getFeatureExtractionData p).length ≤ s.plot_features_.length

/-! ## The source variants (class declarations of istream.h)

The member functions of `AudioStream`, `SerialStream`, `ASCIISerialStream` and
`FirmataStream` are declared in istream.h and defined elsewhere. Their state is
taken from the declarations; what `stop` and the port and pin setters do is
taken from the specification.
-/

/-- The four classes derived from `IStream`. -/
inductive Variant where
  | AudioStream
  | SerialStream
  | ASCIISerialStream
  | FirmataStream
  deriving DecidableEq

/-- The state of a source: `has_started_` of the base class, `port_`, `pin_` and
`configured_arduino_` of the declarations, whether acquisition is under way (the
thread exists, or the audio callback is armed) and the number of data-ready
dispatches made so far. -/
structure Source where
  variant : Variant
  has_started_ : Bool
  port_ : Int
  pin_ : Int
  configured_arduino_ : Bool
  acquiring : Bool
  dispatched : Nat
  deriving DecidableEq

namespace Source

/-- Modelled from the spec: `stop()` of the four variants, which is only declared.
Sections 3, 4.1 and 8: `stop` takes Running to Stopped and halts acquisition (the
thread is joined, the callback deregistered); on a source that is not running
it is a no-op; the handshake state of the firmware variant persists. -/
def stop (s : Source) : Source :=
  if s.has_started_ then { s with has_started_ := false, acquiring := false } else s

/-- Modelled from the spec: `useUSBPort(i)`, overridden by the declarations of
`SerialStream`, `ASCIISerialStream` and `FirmataStream` to select the device
path; `AudioStream` keeps the no-op of the base class. -/
def useUSBPort (s : Source) (i : Int) : Source :=
  match s.variant with
  | .AudioStream => s
  | _ => { s with port_ := i }

/-- Modelled from the spec: `useAnalogPin(i)`, overridden by the declarations of
`SerialStream` and `FirmataStream` to select the analog channel; the other two
variants keep the no-op of the base class. -/
def useAnalogPin (s : Source) (i : Int) : Source :=
  match s.variant with
  | .SerialStream => { s with pin_ := i }
  | .FirmataStream => { s with pin_ := i }
  | _ => s

/-- The accessor `hasStarted()` inherited from `IStream`. -/
def hasStarted (s : Source) : Bool := s.has_started_

/-- A call a consumer can make on a source other than `start()`. -/
inductive Call where
  | stop
  | useUSBPort (i : Int)
  | useAnalogPin (i : Int)
  deriving DecidableEq

/-- Perform one call. -/
def applyCall (s : Source) : Call → Source
  | .stop => s.stop
  | .useUSBPort i => s.useUSBPort i
  | .useAnalogPin i => s.useAnalogPin i

/-- Perform a sequence of calls, first call first. -/
def applyCalls (s : Source) (calls : List Call) : Source :=
  calls.foldl applyCall s

/-- A source as the stream behind `istream_`, for any behaviour of `start()`. -/
def impl (start : Source → Source) : StreamImpl Source :=
  { start := start, stop := Source.stop, has_started_ := Source.has_started_ }

end Source

/-! ## Concrete collaborators and states used to evaluate the embedding -/

/-- A stream that is only its `has_started_` flag: `start` sets it, `stop` clears it. -/
def flagStream : StreamImpl Bool :=
  { start := fun _ => true, stop := fun _ => false, has_started_ := fun b => b }

/-- A stream that is the list of the calls made on it; it never reports started. -/
def callLogStream : StreamImpl (List String) :=
  { start := fun calls => calls ++ ["start"],
    stop := fun calls => calls ++ ["stop"],
    has_started_ := fun _ => false }

/-- A pipeline whose state is the list of vectors passed to `preProcessData`, with
`modules` as its feature-extraction modules and no feature output. -/
def callLogPipeline (modules : List Nat) : PipelineOps (List (List Int)) Int :=
  { preProcessingModules := fun _ => [],
    featureExtractionModules := fun _ => modules,
    preProcessData := fun calls v => (true, calls ++ [v]),
    getPreProcessedData := fun calls => calls.getLastD [],
    getFeatureExtractionData := fun _ => [],
    train := fun calls _ => (true, calls) }

/-- An application state with the given stream, stored input and recording flag,
an empty pipeline log, no plots and nothing recorded. -/
def sampleApp {S : Type} (stream : S) (input : List Int) (recording : Bool) :
    ofApp S (List (List Int)) Int :=
  { buffer_size_ := 256, is_recording_ := recording, label_ := 0, istream_ := stream,
    pipeline_ := [], input_data_ := input, sample_data_ := [],
    training_data_ := { numDimensions := 1, datasetName := "", infoText := "", samples := [] },
    training_thread_ := false, plot_inputs_ := Plot.blank, plot_pre_processed_ := Plot.blank,
    plot_features_ := [], plot_samples_ := [], plot_samples_info_ := [],
    gui_hide_ := true, log_ := [] }

/-! ## Theorems about `IStream` -/

section StreamTheorems

variable {D M W : Type}

theorem IStream.applyCalls_append (s : IStream D M W) (xs ys : List (IStream.NormalizerCall D)) :
    s.applyCalls (xs ++ ys) = (s.applyCalls xs).applyCalls ys := by
  simp [IStream.applyCalls, List.foldl_append]

theorem IStream.atMostOne_applyCall (s : IStream D M W) (c : IStream.NormalizerCall D) :
    (s.applyCall c).atMostOneNormalizer = true := by
  cases c <;> simp [IStream.applyCall, IStream.useNormalizer, IStream.useNormalizerVector,
    IStream.atMostOneNormalizer]

theorem IStream.atMostOne_applyCalls (s : IStream D M W) (calls : List (IStream.NormalizerCall D))
    (h : s.atMostOneNormalizer = true) : (s.applyCalls calls).atMostOneNormalizer = true := by
  induction calls using List.reverseRecOn with
  | nil => simpa [IStream.applyCalls] using h
  | append_singleton xs c _ =>
    rw [IStream.applyCalls_append]
    simpa [IStream.applyCalls] using IStream.atMostOne_applyCall (s.applyCalls xs) c

/-- C1. After any sequence of `useNormalizer` calls (either overload, any order)
the slots hold exactly what the last call installed: after a last elementwise
call `normalizer_` is the function passed and `vectorNormalizer_` is empty, after
a last vector-wise call `vectorNormalizer_` is the function passed and
`normalizer_` is empty; and a stream with at most one slot set keeps at most one
slot set through every sequence of calls, the empty one included. -/
theorem useNormalizer_last_writer_wins (s : IStream D M W)
    (calls : List (IStream.NormalizerCall D)) :
    (∀ f : normalizeFunc D,
        (s.applyCalls (calls ++ [.elementwise f])).normalizer_ = f ∧
        (s.applyCalls (calls ++ [.elementwise f])).vectorNormalizer_ = none) ∧
    (∀ g : vectorNormalizeFunc D,
        (s.applyCalls (calls ++ [.vectorwise g])).vectorNormalizer_ = g ∧
        (s.applyCalls (calls ++ [.vectorwise g])).normalizer_ = none) ∧
    (∀ c : IStream.NormalizerCall D,
        (s.applyCalls (calls ++ [c])).atMostOneNormalizer = true) ∧
    (s.atMostOneNormalizer = true → (s.applyCalls calls).atMostOneNormalizer = true) := by
  refine ⟨fun f => ?_, fun g => ?_, fun c => ?_, fun h => ?_⟩
  · simp [IStream.applyCalls_append, IStream.applyCalls, IStream.applyCall,
      IStream.useNormalizer]
  · simp [IStream.applyCalls_append, IStream.applyCalls, IStream.applyCall,
      IStream.useNormalizerVector]
  · rw [IStream.applyCalls_append]
    simpa [IStream.applyCalls] using IStream.atMostOne_applyCall (s.applyCalls calls) c
  · exact IStream.atMostOne_applyCalls s calls h

/-- Witness for C1: on a stream with both slots empty, an elementwise call
followed by a vector-wise call leaves at most one slot set. -/
theorem useNormalizer_last_writer_wins_witness :
    ((⟨false, none, none, none⟩ : IStream ℚ Unit Unit).atMostOneNormalizer = true) ∧
    (((⟨false, none, none, none⟩ : IStream ℚ Unit Unit).applyCalls
        [.elementwise (some (fun x => x / 2)), .vectorwise (some List.reverse)]
      ).atMostOneNormalizer = true) :=
  ⟨rfl, (useNormalizer_last_writer_wins (⟨false, none, none, none⟩ : IStream ℚ Unit Unit)
      [.elementwise (some (fun x => x / 2)), .vectorwise (some List.reverse)]).2.2.2 rfl⟩

/-- C2. `normalize` returns the elementwise image of the input (same length, the
entry at each index is `f` of the input entry at that index) when an elementwise
normalizer `f` is installed, `g v` when only a vector-wise normalizer `g` is
installed, and the input when neither is; installing `g` after `f` makes
`normalize v = g v`; and with `f x = x / 2` the vector `[1, 2, 3]` is sent to
`[1/2, 1, 3/2]`. -/
theorem normalize_by_installed_normalizer (s : IStream D M W) (t : IStream ℚ M W)
    (v : List D) :
    (∀ f : D → D, s.normalizer_ = some f →
        s.normalize v = v.map f ∧ (s.normalize v).length = v.length ∧
        ∀ i : Nat, (s.normalize v)[i]? = (v[i]?).map f) ∧
    (∀ g : List D → List D, s.normalizer_ = none → s.vectorNormalizer_ = some g →
        s.normalize v = g v) ∧
    (s.normalizer_ = none → s.vectorNormalizer_ = none → s.normalize v = v) ∧
    (∀ f : D → D, (s.useNormalizer (some f)).normalize v = v.map f) ∧
    (∀ (f : D → D) (g : List D → List D),
        ((s.useNormalizer (some f)).useNormalizerVector (some g)).normalize v = g v) ∧
    (t.useNormalizer (some (fun x => x / 2))).normalize [1, 2, 3] = [1 / 2, 1, 3 / 2] := by
  refine ⟨fun f hf => ?_, fun g hf hg => ?_, fun hf hg => ?_, fun f => ?_, fun f g => ?_, ?_⟩
  · have h : s.normalize v = v.map f := by simp [IStream.normalize, hf]
    refine ⟨h, ?_, fun i => ?_⟩
    · simp [h]
    · simp [h]
  · simp [IStream.normalize, hf, hg]
  · simp [IStream.normalize, hf, hg]
  · simp [IStream.normalize, IStream.useNormalizer]
  · simp [IStream.normalize, IStream.useNormalizer, IStream.useNormalizerVector]
  · norm_num [IStream.normalize, IStream.useNormalizer]

/-- Witness for C2: a stream whose elementwise slot holds halving and whose
vector-wise slot is empty halves every entry of `[1, 2, 3]`. -/
theorem normalize_by_installed_normalizer_witness :
    (⟨false, none, some (fun x => x / 2), none⟩ : IStream ℚ Unit Unit).normalize [1, 2, 3]
      = [1, 2, 3].map (fun x => x / 2) :=
  ((normalize_by_installed_normalizer
      (⟨false, none, some (fun x => x / 2), none⟩ : IStream ℚ Unit Unit)
      (⟨false, none, none, none⟩ : IStream ℚ Unit Unit) [1, 2, 3]).1
    (fun x => x / 2) rfl).1

/-- C3. Registering a callback and then another, through either overload of
`onDataReadyEvent`, leaves `data_ready_callback_` holding the second callable
alone; a dispatch then runs the second callback once on the dispatched matrix and
the first not at all. With two callbacks that append their own number to a log,
the log after one dispatch is `[2]`. -/
theorem onDataReadyEvent_replaces (s : IStream D M W) (t : IStream D M (List Nat))
    (r1 r2 : Registration M W) :
    ((s.register r1).register r2).data_ready_callback_ = r2.callable ∧
    ((s.register r1).register r2) = s.register r2 ∧
    (∀ (c2 : M → W → W) (m : M) (w : W), r2.callable = some c2 →
        ((s.register r1).register r2).dispatch m w = c2 m w) ∧
    (∀ m : M,
        ((t.onDataReadyEvent (some (fun _ w => w ++ [1]))).onDataReadyEvent
          (some (fun _ w => w ++ [2]))).dispatch m [] = [2]) := by
  refine ⟨?_, ?_, fun c2 m w h => ?_, fun m => ?_⟩
  · cases r1 <;> cases r2 <;>
      simp [IStream.register, IStream.onDataReadyEvent, IStream.onDataReadyEventMember,
        Registration.callable]
  · cases r1 <;> cases r2 <;>
      simp [IStream.register, IStream.onDataReadyEvent, IStream.onDataReadyEventMember]
  · have hcb : ((s.register r1).register r2).data_ready_callback_ = some c2 := by
      rw [← h]
      cases r1 <;> cases r2 <;>
        simp [IStream.register, IStream.onDataReadyEvent, IStream.onDataReadyEventMember,
          Registration.callable]
    simp [IStream.dispatch, hcb]
  · simp [IStream.dispatch, IStream.onDataReadyEvent]

/-- Witness for C3: a member-function registration followed by a function-value
registration that appends `2` to a log; the dispatch appends `2` once. -/
theorem onDataReadyEvent_replaces_witness :
    (((⟨false, none, none, none⟩ : IStream ℚ Unit (List Nat)).register
        (.member (fun _ => ()) () (fun _ _ w => w ++ [1]))).register
        (.function (some (fun _ w => w ++ [2])))).dispatch () [] = [] ++ [2] :=
  (onDataReadyEvent_replaces (⟨false, none, none, none⟩ : IStream ℚ Unit (List Nat))
      (⟨false, none, none, none⟩ : IStream ℚ Unit (List Nat))
      (.member (fun _ => ()) () (fun _ _ w => w ++ [1]))
      (.function (some (fun _ w => w ++ [2])))).2.2.1 (fun _ w => w ++ [2]) () [] rfl

/-- C4. The base-class `useUSBPort(i)` and `useAnalogPin(i)` change nothing: the
stream is the same afterwards, in particular `has_started_`, the registered
callback and both normalizer slots, and `hasStarted()` returns the same value. -/
theorem base_port_and_pin_setters_are_noops (s : IStream D M W) (i : Int) :
    s.useUSBPort i = s ∧ s.useAnalogPin i = s ∧
    (s.useUSBPort i).has_started_ = s.has_started_ ∧
    (s.useUSBPort i).data_ready_callback_ = s.data_ready_callback_ ∧
    (s.useUSBPort i).normalizer_ = s.normalizer_ ∧
    (s.useUSBPort i).vectorNormalizer_ = s.vectorNormalizer_ ∧
    (s.useAnalogPin i).has_started_ = s.has_started_ ∧
    (s.useAnalogPin i).data_ready_callback_ = s.data_ready_callback_ ∧
    (s.useAnalogPin i).normalizer_ = s.normalizer_ ∧
    (s.useAnalogPin i).vectorNormalizer_ = s.vectorNormalizer_ ∧
    (s.useUSBPort i).hasStarted = s.hasStarted ∧
    (s.useAnalogPin i).hasStarted = s.hasStarted :=
  ⟨rfl, rfl, rfl, rfl, rfl, rfl, rfl, rfl, rfl, rfl, rfl, rfl⟩

end StreamTheorems

/-! ## Theorems about the consumer -/

section ConsumerTheorems

variable {S P D : Type}

theorem ofApp.updateFeaturePlots_some (feature : List D) :
    ∀ (i : Nat) (plots : List (Plot D)), i + feature.length ≤ plots.length →
      ∃ plots', ofApp.updateFeaturePlots feature i plots = some plots' ∧
        plots'.length = plots.length := by
  induction feature with
  | nil => intro i plots _; exact ⟨plots, rfl, rfl⟩
  | cons x rest ih =>
    intro i plots h
    have hlen : i + 1 + rest.length ≤ plots.length := by
      simp only [List.length_cons] at h; omega
    have hi : i < plots.length := by omega
    obtain ⟨plots', h1, h2⟩ :=
      ih (i + 1) (plots.set i ((plots[i]).update [x])) (by simpa using hlen)
    refine ⟨plots', ?_, by simpa using h2⟩
    simp [ofApp.updateFeaturePlots, List.getElem?_eq_getElem hi, h1]

theorem ofApp.updateEffect_nil (impl : StreamImpl S) (ops : PipelineOps P D)
    (s : ofApp S P D) : UpdateEffect impl ops [] s s := by
  constructor <;> simp

theorem ofApp.updateStep_effect (impl : StreamImpl S) (ops : PipelineOps P D)
    (s : ofApp S P D) (x : D) (hfit : FeaturesFit impl ops s) :
    ∃ s', ofApp.updateStep impl ops s x = some s' ∧ UpdateEffect impl ops [x] s s' := by
  cases hst : impl.hasStarted s.istream_ with
  | false =>
    cases hrec : s.is_recording_ with
    | false =>
      refine ⟨_, by simp [ofApp.updateStep, hst, hrec]; rfl, ?_⟩
      constructor <;> simp [hst, hrec, Plot.update]
    | true =>
      refine ⟨_, by simp [ofApp.updateStep, hst, hrec]; rfl, ?_⟩
      constructor <;> simp [hst, hrec, Plot.update]
  | true =>
    have hfit' : ∀ p : P, (ops.getFeatureExtractionData p).length ≤ s.plot_features_.length := by
      rcases hfit with h | h
      · rw [hst] at h; cases h
      · exact h
    obtain ⟨plots', hp, hl⟩ := ofApp.updateFeaturePlots_some
      (ops.getFeatureExtractionData (ops.preProcessData s.pipeline_ [x]).2) 0 s.plot_features_
      (by simpa using hfit' _)
    cases hrec : s.is_recording_ with
    | false =>
      refine ⟨_, by simp [ofApp.updateStep, hst, hrec, hp]; rfl, ?_⟩
      constructor <;> simp [hst, hrec, hl, Plot.update]
    | true =>
      refine ⟨_, by simp [ofApp.updateStep, hst, hrec, hp]; rfl, ?_⟩
      constructor <;> simp [hst, hrec, hl, Plot.update]

theorem ofApp.updateEffect_cons (impl : StreamImpl S) (ops : PipelineOps P D)
    (x : D) (xs : List D) (s s1 s' : ofApp S P D)
    (h1 : UpdateEffect impl ops [x] s s1) (h2 : UpdateEffect impl ops xs s1 s') :
    UpdateEffect impl ops (x :: xs) s s' := by
  have hs : impl.hasStarted s1.istream_ = impl.hasStarted s.istream_ := by rw [h1.istream]
  constructor
  · rw [h2.input_data, h1.input_data]
  · rw [h2.istream, h1.istream]
  · rw [h2.is_recording, h1.is_recording]
  · rw [h2.label, h1.label]
  · rw [h2.gui_hide, h1.gui_hide]
  · rw [h2.sample_data, h1.sample_data, h1.is_recording]
    cases s.is_recording_ <;> simp
  · rw [h2.plot_inputs, h1.plot_inputs]; simp
  · rw [h2.features_length, h1.features_length]
  · intro h
    rw [h2.pipeline_started (hs.trans h), h1.pipeline_started h]; simp
  · intro h
    rw [h2.pipeline_stopped (hs.trans h), h1.pipeline_stopped h]
  · intro h
    rw [h2.pre_processed_stopped (hs.trans h), h1.pre_processed_stopped h]
  · intro h
    rw [h2.features_stopped (hs.trans h), h1.features_stopped h]

theorem ofApp.featuresFit_of_effect (impl : StreamImpl S) (ops : PipelineOps P D)
    (xs : List D) (s s' : ofApp S P D) (h : UpdateEffect impl ops xs s s')
    (hfit : FeaturesFit impl ops s) : FeaturesFit impl ops s' := by
  rcases hfit with hf | hf
  · left; rw [h.istream]; exact hf
  · right; intro p; rw [h.features_length]; exact hf p

theorem ofApp.foldlM_updateStep_effect (impl : StreamImpl S) (ops : PipelineOps P D)
    (xs : List D) : ∀ s : ofApp S P D, FeaturesFit impl ops s →
      ∃ s', xs.foldlM (ofApp.updateStep impl ops) s = some s' ∧
        UpdateEffect impl ops xs s s' := by
  induction xs with
  | nil => intro s _; exact ⟨s, rfl, ofApp.updateEffect_nil impl ops s⟩
  | cons x xs ih =>
    intro s hfit
    obtain ⟨s1, hstep, heff1⟩ := ofApp.updateStep_effect impl ops s x hfit
    obtain ⟨s', hrest, heff2⟩ :=
      ih s1 (ofApp.featuresFit_of_effect impl ops [x] s s1 heff1 hfit)
    refine ⟨s', ?_, ofApp.updateEffect_cons impl ops x xs s s1 s' heff1 heff2⟩
    simp [List.foldlM, hstep, hrest]

theorem ofApp.update_effect (impl : StreamImpl S) (ops : PipelineOps P D)
    (s : ofApp S P D) (hfit : FeaturesFit impl ops s) :
    ∃ s', ofApp.update impl ops s = some s' ∧ UpdateEffect impl ops s.input_data_ s s' :=
  ofApp.foldlM_updateStep_effect impl ops s.input_data_ s hfit

/-- C5. `onDataIn(v)` stores exactly `v` in `input_data_`, whatever was stored
before, so after the deliveries `v1` then `v2` the stored data is `v2`; the
members `is_recording_`, `sample_data_` and `label_` (and every other member) are
unchanged. -/
theorem onDataIn_overwrites (s : ofApp S P D) (v1 v2 : List D) :
    (s.onDataIn v2).input_data_ = v2 ∧
    ((s.onDataIn v1).onDataIn v2).input_data_ = v2 ∧
    (s.onDataIn v1).onDataIn v2 = s.onDataIn v2 ∧
    (s.onDataIn v2).is_recording_ = s.is_recording_ ∧
    (s.onDataIn v2).sample_data_ = s.sample_data_ ∧
    (s.onDataIn v2).label_ = s.label_ ∧
    s.onDataIn v2 = { s with input_data_ := v2 } :=
  ⟨rfl, rfl, rfl, rfl, rfl, rfl, rfl⟩

/-- C7, as stated, fails: with the sample `7` stored, recording on and the stream
stopped, `update` returns with `input_data_` still `[7]`, not empty, and a second
`update` with no dispatch in between appends the same sample to `sample_data_`
again. -/
theorem update_does_not_drain_counterexample :
    (ofApp.update flagStream (callLogPipeline []) (sampleApp false [7] true)).map
        (fun s => s.input_data_) = some [7] ∧
    (ofApp.update flagStream (callLogPipeline []) (sampleApp false [7] true)).map
        (fun s => s.input_data_) ≠ some [] ∧
    ((ofApp.update flagStream (callLogPipeline []) (sampleApp false [7] true)).bind
        (ofApp.update flagStream (callLogPipeline []))).map
        (fun s => s.sample_data_) = some [[7], [7]] := by
  decide

/-- C7, amended. `update` reads `input_data_` without changing it: whenever the
feature plots cover the feature vector (or the stream has not started), `update`
returns with the same `input_data_`, and so does a second `update` run right
after it; while `is_recording_` is set each of the two runs appends every stored
sample to `sample_data_`, in order, so two runs append them twice. -/
theorem update_keeps_input_data (impl : StreamImpl S) (ops : PipelineOps P D)
    (s : ofApp S P D) (hfit : FeaturesFit impl ops s) :
    ∃ s1 s2, ofApp.update impl ops s = some s1 ∧ ofApp.update impl ops s1 = some s2 ∧
      s1.input_data_ = s.input_data_ ∧ s2.input_data_ = s.input_data_ ∧
      s1.sample_data_ = s.sample_data_ ++
        (if s.is_recording_ then s.input_data_.map (fun x => [x]) else []) ∧
      s2.sample_data_ = s.sample_data_ ++
        (if s.is_recording_ then s.input_data_.map (fun x => [x]) else []) ++
        (if s.is_recording_ then s.input_data_.map (fun x => [x]) else []) := by
  obtain ⟨s1, h1, e1⟩ := ofApp.update_effect impl ops s hfit
  obtain ⟨s2, h2, e2⟩ := ofApp.update_effect impl ops s1
    (ofApp.featuresFit_of_effect impl ops s.input_data_ s s1 e1 hfit)
  refine ⟨s1, s2, h1, h2, e1.input_data, ?_, e1.sample_data, ?_⟩
  · rw [e2.input_data, e1.input_data]
  · rw [e2.sample_data, e1.sample_data, e1.is_recording, e1.input_data]

/-- Witness for the amended C7: the stopped state holding the sample `7` with
recording on. -/
theorem update_keeps_input_data_witness :
    FeaturesFit flagStream (callLogPipeline []) (sampleApp false [7] true) ∧
    ∃ s1 s2, ofApp.update flagStream (callLogPipeline []) (sampleApp false [7] true) = some s1 ∧
      ofApp.update flagStream (callLogPipeline []) s1 = some s2 ∧
      s1.input_data_ = (sampleApp false [7] true).input_data_ ∧
      s2.input_data_ = (sampleApp false [7] true).input_data_ ∧
      s1.sample_data_ = (sampleApp false [7] true).sample_data_ ++
        (if (sampleApp false [7] true).is_recording_
          then (sampleApp false [7] true).input_data_.map (fun x => [x]) else []) ∧
      s2.sample_data_ = (sampleApp false [7] true).sample_data_ ++
        (if (sampleApp false [7] true).is_recording_
          then (sampleApp false [7] true).input_data_.map (fun x => [x]) else []) ++
        (if (sampleApp false [7] true).is_recording_
          then (sampleApp false [7] true).input_data_.map (fun x => [x]) else []) :=
  ⟨Or.inl rfl,
    update_keeps_input_data flagStream (callLogPipeline []) (sampleApp false [7] true)
      (Or.inl rfl)⟩

theorem charCode_values :
    charCode '0' = 48 ∧ charCode '9' = 57 ∧ charCode 't' = 116 ∧ charCode 'h' = 104 ∧
      charCode 's' = 115 ∧ charCode 'e' = 101 ∧ charCode 'p' = 112 := by
  decide

/-- C9, evaluated on the code. The key `h` toggles `gui_hide_` and then, for lack
of a `break`, runs the statements of `case 's'`: `istream_->start()` is called.
On a stream that logs its calls the log gains the entry `start`. The keys `s`
and `e` do what the instructions say: `s` calls `start()`, `e` calls `stop()`,
and both leave `gui_hide_` unchanged. -/
theorem keyPressed_h_also_starts (impl : StreamImpl S) (ops : PipelineOps P D)
    (s : ofApp S P D) (a : ofApp (List String) P D) :
    (ofApp.keyPressed impl ops s (charCode 'h')).gui_hide_ = !s.gui_hide_ ∧
    (ofApp.keyPressed impl ops s (charCode 'h')).istream_ = impl.start s.istream_ ∧
    (ofApp.keyPressed callLogStream ops a (charCode 'h')).istream_ = a.istream_ ++ ["start"] ∧
    (ofApp.keyPressed impl ops s (charCode 's')).istream_ = impl.start s.istream_ ∧
    (ofApp.keyPressed impl ops s (charCode 's')).gui_hide_ = s.gui_hide_ ∧
    (ofApp.keyPressed impl ops s (charCode 'e')).istream_ = impl.stop s.istream_ ∧
    (ofApp.keyPressed impl ops s (charCode 'e')).gui_hide_ = s.gui_hide_ := by
  obtain ⟨h0, h9, ht, hh, hs, he, hp⟩ := charCode_values
  refine ⟨?_, ?_, ?_, ?_, ?_, ?_, ?_⟩ <;>
    simp [ofApp.keyPressed, ofApp.keyPressedCaseS, callLogStream, h0, h9, ht, hh, hs, he, hp]

/-- C10, evaluated on the code. `setup` looks up feature-extraction module 1
whenever there is at least one module. With exactly one module the guard holds,
the index 1 is not below the number of modules, the lookup yields no module and
`setup` does not complete. -/
theorem setup_feature_lookup_out_of_range (ops : PipelineOps P D) (kNumMaxLabels_ : Nat)
    (newStream : S) (userPipeline : P) (s : ofApp S P D)
    (h : ops.getNumFeatureExtractionModules userPipeline = 1) :
    ops.getNumFeatureExtractionModules userPipeline > 0 ∧
    ¬ (1 < ops.getNumFeatureExtractionModules userPipeline) ∧
    ops.getFeatureExtractionModule userPipeline 1 = none ∧
    ofApp.setup ops kNumMaxLabels_ newStream userPipeline s = none := by
  have hlen : (ops.featureExtractionModules userPipeline).length = 1 := h
  have hnone : ops.getFeatureExtractionModule userPipeline 1 = none := by
    simp [PipelineOps.getFeatureExtractionModule, hlen]
  refine ⟨by omega, by omega, hnone, ?_⟩
  simp only [ofApp.setup]
  cases hpre : ofApp.setupPreProcessedPlot ops
      { s with buffer_size_ := 256, is_recording_ := false, istream_ := newStream,
               pipeline_ := userPipeline,
               plot_inputs_ := s.plot_inputs_.setup 256 1 "Input" } with
  | none => simp [hpre]
  | some pre =>
    simp [hpre, ofApp.setupFeaturePlots, h, hnone]

/-- Witness for C10: a pipeline with the single feature-extraction module of 3
output dimensions. -/
theorem setup_feature_lookup_out_of_range_witness :
    (callLogPipeline [3]).getNumFeatureExtractionModules [] = 1 ∧
    ofApp.setup (callLogPipeline [3]) 9 false [] (sampleApp false [] false) = none :=
  ⟨rfl, (setup_feature_lookup_out_of_range (callLogPipeline [3]) 9 false []
    (sampleApp false [] false) rfl).2.2.2⟩

end ConsumerTheorems

end ESP
